import Mathlib

/-!
Verification of the zella turntable controller (spinner sketch and teensySine
sketch) against its design specification.

The embedding mirrors the two Arduino sketches:
* the "spinner" sketch (Encoder/OLED/I2C version) supplies `sample`,
  `createSineTable`, `setGain`, `getSineFrequency`, `getInterruptMicroseconds`
  and `loop`;
* the "teensySine" sketch supplies the continuous (audio-taper pot) control
  path with its `vFreq == 0` guard.

Floating-point arithmetic of the control path is modelled over `ℚ` (all
operations involved are field operations on decimal literals); the sine-table
construction, which calls the transcendental `sin`, is modelled over `ℝ` with
`Real.sin`, and the C `(uint16_t)` cast of the nonnegative sample value is
modelled as `Int.floor` (truncation toward zero of a nonnegative value).
Machine indices stay far below `2^32`, so `ℕ` models `uint32_t` exactly here.
-/

set_option maxRecDepth 4000

namespace Zella

/-! ## Build-time constants (spinner sketch `#define`s) -/

def SAMPLES_PER_CYCLE : ℕ := 600

def DAC_RESOLUTION : ℕ := 12

/-- Ratio of platter to pulley diameter, `GEAR_RATIO = 7.342` in the source. -/
def GEAR_FACTOR : ℚ := 7342 / 1000

def STEP_ANGLE : ℚ := 15 / 2

def RPM_TOGGLE_LEFT : ℚ := 33333 / 1000

def RPM_TOGGLE_RIGHT : ℚ := 45

def MIN_SINE_FREQ : ℚ := 10

def MAX_SINE_FREQ : ℚ := 75

def STEPPER_AMP_RES : ℚ := 64

/-! ## WaveformSampler (`sample()` in both sketches)

`sample()` increments each index, wraps it to 0 only when the incremented
value exceeds `SAMPLES_PER_CYCLE` (strict `>` test), and then reads
`sineTable` at the two post-update indices.  The state is the pair
`(waveIndexA, waveIndexB)`. -/

def wrapIndex (i : ℕ) : ℕ :=
  if i + 1 > SAMPLES_PER_CYCLE then 0 else i + 1

/-- One invocation of `sample()`: both indices are incremented and wrapped;
the table is then read at exactly these two resulting indices. -/
def sampleStep (s : ℕ × ℕ) : ℕ × ℕ :=
  (wrapIndex s.1, wrapIndex s.2)

/-- Initial sampler state: `waveIndexA = SAMPLES_PER_CYCLE / 4`,
`waveIndexB = 0`. -/
def waveInit : ℕ × ℕ :=
  (SAMPLES_PER_CYCLE / 4, 0)

/-- Sampler state after `k` invocations of `sample()` from the initial state. -/
def waveState (k : ℕ) : ℕ × ℕ :=
  sampleStep^[k] waveInit

/-! ## Theorems for the sampler claims -/

/-- Each index follows the cycle `0, 1, ..., 600, 0, ...` of length 601:
wrapping happens only when the incremented index exceeds 600. -/
lemma wrapIndex_mod (n : ℕ) : wrapIndex (n % 601) = (n + 1) % 601 := by
  simp only [wrapIndex, SAMPLES_PER_CYCLE]
  split <;> omega

/-- Closed form of the sampler state: both indices advance modulo 601
(not modulo 600), starting from 150 and 0 respectively. -/
lemma waveState_closed_form (k : ℕ) :
    waveState k = ((150 + k) % 601, k % 601) := by
  induction k with
  | zero => simp [waveState, waveInit, SAMPLES_PER_CYCLE]
  | succ k ih =>
      have h : waveState (k + 1) = sampleStep (waveState k) :=
        Function.iterate_succ_apply' sampleStep k waveInit
      rw [h, ih]
      show (wrapIndex ((150 + k) % 601), wrapIndex (k % 601)) = _
      rw [wrapIndex_mod, wrapIndex_mod, Nat.add_assoc]

/-- C1.  The quadrature phase invariant `(waveIndexA - waveIndexB) mod 600 = 150`
is broken by the code: because the wrap test is the strict `waveIndexA > 600`,
each index cycles through 601 distinct values, and after 451 invocations of
`sample()` from the initial state the state is `(0, 451)`, whose signed index
difference is `149 (mod 600)`, not `150`.  This theorem evaluates the embedded
code at that failing input. -/
theorem quadrature_invariant_violated_after_451_samples :
    waveState 451 = (0, 451) ∧
    (((waveState 451).1 : ℤ) - ((waveState 451).2 : ℤ)) % 600 = 149 := by
  have h : waveState 451 = (0, 451) := by
    rw [waveState_closed_form]
  exact ⟨h, by rw [h]; decide⟩

/-- C2.  Index-bound safety is violated: after 450 invocations of `sample()`
from the initial state, `waveIndexA` equals `600 = SAMPLES_PER_CYCLE` at the
moment `sineTable` is read (the wrap test `> 600` lets the index reach 600),
so the table of size 600 is read one past its end. -/
theorem index_reaches_table_size_after_450_samples :
    (waveState 450).1 = SAMPLES_PER_CYCLE ∧
    ¬ (waveState 450).1 < SAMPLES_PER_CYCLE := by
  have h : waveState 450 = (600, 450) := by
    rw [waveState_closed_form]
  rw [h]
  exact ⟨rfl, by decide⟩

/-! ## GainCompensator (`setGain` in the spinner sketch)

`setGain` computes `(int8_t) ((STEPPER_AMP_RES-1) * sineFrequency / MAX_SINE_FREQ)`
and writes that byte on the I2C bus.  There is no clamp in the source.  The C
float-to-integer cast truncates toward zero, modelled by `ratTrunc`. -/

/-- Truncation toward zero of a rational, the behaviour of a C
float-to-integer cast (for values representable in the target type). -/
def ratTrunc (q : ℚ) : ℤ :=
  if 0 ≤ q then ⌊q⌋ else -⌊-q⌋

/-- The gain code computed by `setGain`:
`(int8_t)((STEPPER_AMP_RES-1) * sineFrequency / MAX_SINE_FREQ)`, unclamped. -/
def gainCode (f : ℚ) : ℤ :=
  ratTrunc ((STEPPER_AMP_RES - 1) * f / MAX_SINE_FREQ)

/-- The gain function as the specification words it:
`floor((RES - 1) * frequency / MAX_FREQ)` clamped to `[0, RES-1]`.
This definition follows the spec, to be compared with `gainCode` above. -/
def gainSpecClamped (f : ℚ) : ℤ :=
  max 0 (min 63 ⌊(STEPPER_AMP_RES - 1) * f / MAX_SINE_FREQ⌋)

lemma gainCode_eq_floor (f : ℚ) (h0 : 0 ≤ f) :
    gainCode f = ⌊(STEPPER_AMP_RES - 1) * f / MAX_SINE_FREQ⌋ := by
  have hq0 : (0 : ℚ) ≤ (STEPPER_AMP_RES - 1) * f / MAX_SINE_FREQ := by
    unfold STEPPER_AMP_RES MAX_SINE_FREQ
    positivity
  simp [gainCode, ratTrunc, hq0]

lemma floor_gain_le (f : ℚ) (h1 : f ≤ MAX_SINE_FREQ) :
    ⌊(STEPPER_AMP_RES - 1) * f / MAX_SINE_FREQ⌋ ≤ 63 := by
  have hq1 : (STEPPER_AMP_RES - 1) * f / MAX_SINE_FREQ ≤ 63 := by
    unfold STEPPER_AMP_RES MAX_SINE_FREQ at *
    rw [div_le_iff₀ (by norm_num : (0:ℚ) < 75)]
    linarith
  calc ⌊(STEPPER_AMP_RES - 1) * f / MAX_SINE_FREQ⌋ ≤ ⌊(63 : ℚ)⌋ :=
        Int.floor_le_floor hq1
    _ = 63 := by norm_num

/-- C7 counterexample.  The claim says the dispatched gain code is the clamped
floor for every input frequency; but `setGain` has no clamp, and at
`sineFrequency = 150` the code computes `(int8_t)(63*150/75) = 126` while the
clamped value is `63`. -/
theorem setGain_clamping_fails_at_150 :
    gainCode 150 = 126 ∧ gainSpecClamped 150 = 63 ∧
    gainCode 150 ≠ gainSpecClamped 150 := by
  refine ⟨?_, ?_, ?_⟩ <;>
    norm_num [gainCode, gainSpecClamped, ratTrunc, STEPPER_AMP_RES, MAX_SINE_FREQ]

/-- C7 amended.  `setGain` applies no clamp: the dispatched code is the plain
truncation of `(RES-1)·f/MAX`.  It agrees with the clamped floor of the spec
exactly on `0 ≤ f ≤ MAX_SINE_FREQ` (in particular on the whole range the
control loop can pass it); outside that range they diverge, as the
counterexample shows. -/
theorem setGain_matches_clamped_floor_on_range (f : ℚ)
    (h0 : 0 ≤ f) (h1 : f ≤ MAX_SINE_FREQ) :
    gainCode f = gainSpecClamped f := by
  have hfl0 : 0 ≤ ⌊(STEPPER_AMP_RES - 1) * f / MAX_SINE_FREQ⌋ := by
    apply Int.floor_nonneg.mpr
    unfold STEPPER_AMP_RES MAX_SINE_FREQ
    positivity
  have hfl1 := floor_gain_le f h1
  rw [gainCode_eq_floor f h0, gainSpecClamped, min_eq_right hfl1, max_eq_right hfl0]

/-- C7 witness: the amended equation instantiated at `f = 50`. -/
theorem setGain_matches_clamped_floor_witness :
    (0 : ℚ) ≤ 50 ∧ (50 : ℚ) ≤ MAX_SINE_FREQ ∧ gainCode 50 = gainSpecClamped 50 :=
  ⟨by norm_num, by norm_num [MAX_SINE_FREQ],
    setGain_matches_clamped_floor_on_range 50 (by norm_num) (by norm_num [MAX_SINE_FREQ])⟩

/-- C9.  For every frequency in the clamped range `[MIN_SINE_FREQ,
MAX_SINE_FREQ] = [10, 75]` — the only values the control loop ever passes to
`setGain` — the computed code lies in `[0, STEPPER_AMP_RES - 1] = [0, 63]`,
so the `int8_t` cast is exact (the value fits in `[-128, 127]`) and the I2C
bus never receives a negative or out-of-range gain code. -/
theorem gainCode_in_range_on_clamped_freq (f : ℚ)
    (h0 : MIN_SINE_FREQ ≤ f) (h1 : f ≤ MAX_SINE_FREQ) :
    0 ≤ gainCode f ∧ gainCode f ≤ 63 := by
  have hf0 : (0 : ℚ) ≤ f := le_trans (by norm_num [MIN_SINE_FREQ]) h0
  rw [gainCode_eq_floor f hf0]
  constructor
  · apply Int.floor_nonneg.mpr
    unfold STEPPER_AMP_RES MAX_SINE_FREQ
    positivity
  · exact floor_gain_le f h1

/-- C9 witness: the gain bound instantiated at `f = MIN_SINE_FREQ = 10`. -/
theorem gainCode_in_range_witness :
    MIN_SINE_FREQ ≤ (10 : ℚ) ∧ (10 : ℚ) ≤ MAX_SINE_FREQ ∧
    (0 ≤ gainCode 10 ∧ gainCode 10 ≤ 63) :=
  ⟨by norm_num [MIN_SINE_FREQ], by norm_num [MAX_SINE_FREQ],
    gainCode_in_range_on_clamped_freq 10 (by norm_num [MIN_SINE_FREQ])
      (by norm_num [MAX_SINE_FREQ])⟩

/-! ## FrequencyController (spinner sketch `loop()` and helpers)

The float arithmetic of the control loop (preset frequencies, encoder scaling,
clamping, period derivation) involves only field operations on decimal
constants and is modelled exactly over `ℚ`.  The externally visible actions
of one iteration (timer restart, I2C gain write, OLED display write) are
recorded in `LoopEffects`. -/

def getSineFrequency (stepperFrequency : ℚ) : ℚ :=
  ((360 / STEP_ANGLE) * (stepperFrequency / 60)) / 4

def getInterruptMicroseconds (f : ℚ) : ℚ :=
  1000000 / (f * (SAMPLES_PER_CYCLE : ℚ))

/-- The platter rpm derived in `oledDisplayRPM`. -/
def platterRPM (f : ℚ) : ℚ :=
  4 * 60 * STEP_ANGLE * f / 360 / GEAR_FACTOR

def freqLeft : ℚ := getSineFrequency (RPM_TOGGLE_LEFT * GEAR_FACTOR)

def freqRight : ℚ := getSineFrequency (RPM_TOGGLE_RIGHT * GEAR_FACTOR)

/-- The boundary enforcement in `loop()`:
`if (newFreq < MIN) newFreq = MIN; else if (newFreq > MAX) newFreq = MAX;`. -/
def clampFreq (f : ℚ) : ℚ :=
  if f < MIN_SINE_FREQ then MIN_SINE_FREQ
  else if MAX_SINE_FREQ < f then MAX_SINE_FREQ
  else f

/-- Mutable globals read and written by `loop()`.  `encoderCount` is the
hardware quadrature accumulator (`encoder.read()` / `encoder.write(0)`). -/
structure LoopState where
  useEncoder : Bool
  encoderHasBeenPressed : Bool
  encoderCount : ℤ
  sineFrequency : ℚ
  interruptMicroseconds : ℚ
deriving DecidableEq

/-- External readings for one iteration: the two digital pins, and the encoder
pulses accrued by the hardware counter since the previous iteration. -/
structure LoopInput where
  encSwitchLow : Bool
  freqToggleLow : Bool
  encDelta : ℤ
deriving DecidableEq

/-- Externally visible actions of one `loop()` iteration. -/
structure LoopEffects where
  timerRestarted : Bool
  gainWrite : Option ℤ
  displayWrite : Option ℚ
deriving DecidableEq

def noEffects : LoopEffects :=
  { timerRestarted := false, gainWrite := none, displayWrite := none }

def presetFreq (toggleLow : Bool) : ℚ :=
  if toggleLow then freqLeft else freqRight

/-- One iteration of the spinner sketch function `loop()`. -/
def loopStep (s : LoopState) (i : LoopInput) : LoopState × LoopEffects :=
  if !s.encoderHasBeenPressed && i.encSwitchLow then
    ({ s with encoderHasBeenPressed := true,
              useEncoder := !s.useEncoder,
              encoderCount := 0 }, noEffects)
  else
    let s0 : LoopState :=
      if !i.encSwitchLow then { s with encoderHasBeenPressed := false } else s
    let cnt : ℤ := s0.encoderCount + i.encDelta
    let rawFreq : ℚ :=
      if s0.useEncoder then s0.sineFrequency + (cnt : ℚ) / 4
      else presetFreq i.freqToggleLow
    let s1 : LoopState :=
      if s0.useEncoder then { s0 with encoderCount := 0 }
      else { s0 with encoderCount := cnt }
    let newFreq : ℚ := clampFreq rawFreq
    if newFreq ≠ s1.sineFrequency then
      ({ s1 with sineFrequency := newFreq,
                 interruptMicroseconds := getInterruptMicroseconds newFreq },
       { timerRestarted := true,
         gainWrite := some (gainCode newFreq),
         displayWrite := some (platterRPM newFreq) })
    else (s1, noEffects)

/-- The clamped candidate frequency an iteration compares against the current
frequency (meaningful on non-toggle iterations). -/
def dispatchTarget (s : LoopState) (i : LoopInput) : ℚ :=
  clampFreq (if s.useEncoder then
               s.sineFrequency + ((s.encoderCount + i.encDelta : ℤ) : ℚ) / 4
             else presetFreq i.freqToggleLow)

lemma clampFreq_mem (f : ℚ) :
    MIN_SINE_FREQ ≤ clampFreq f ∧ clampFreq f ≤ MAX_SINE_FREQ := by
  unfold clampFreq MIN_SINE_FREQ MAX_SINE_FREQ
  split_ifs <;> constructor <;> linarith

lemma clampFreq_eq_self {f : ℚ}
    (h0 : MIN_SINE_FREQ ≤ f) (h1 : f ≤ MAX_SINE_FREQ) : clampFreq f = f := by
  unfold clampFreq
  rw [if_neg (not_lt.mpr h0), if_neg (not_lt.mpr h1)]

lemma interruptMicroseconds_pos {f : ℚ} (h : MIN_SINE_FREQ ≤ f) :
    0 < getInterruptMicroseconds f := by
  unfold getInterruptMicroseconds SAMPLES_PER_CYCLE
  unfold MIN_SINE_FREQ at h
  apply div_pos (by norm_num)
  apply mul_pos (by linarith) (by norm_num)

lemma dispatchTarget_mem (s : LoopState) (i : LoopInput) :
    MIN_SINE_FREQ ≤ dispatchTarget s i ∧ dispatchTarget s i ≤ MAX_SINE_FREQ := by
  unfold dispatchTarget
  exact clampFreq_mem _

/-- Branch characterization: a mode-toggle edge (`encoderHasBeenPressed`
false, switch reading LOW) flips the mode, zeroes the accumulator, marks the
debounce flag and returns with no external effect. -/
lemma loopStep_toggle (s : LoopState) (i : LoopInput)
    (hp : s.encoderHasBeenPressed = false) (hsw : i.encSwitchLow = true) :
    loopStep s i =
      ({ s with encoderHasBeenPressed := true,
                useEncoder := !s.useEncoder,
                encoderCount := 0 }, noEffects) := by
  simp [loopStep, hp, hsw]

/-- Branch characterization: every non-toggle iteration updates the debounce
flag and the accumulator, then dispatches (timer + gain + display) exactly
when the clamped candidate differs from the current frequency. -/
lemma loopStep_main (s : LoopState) (i : LoopInput)
    (h : (!s.encoderHasBeenPressed && i.encSwitchLow) = false) :
    loopStep s i =
      (if dispatchTarget s i = s.sineFrequency then
        ({ s with
            encoderHasBeenPressed := s.encoderHasBeenPressed && i.encSwitchLow,
            encoderCount :=
              if s.useEncoder then 0 else s.encoderCount + i.encDelta },
         noEffects)
      else
        ({ s with
            encoderHasBeenPressed := s.encoderHasBeenPressed && i.encSwitchLow,
            encoderCount :=
              if s.useEncoder then 0 else s.encoderCount + i.encDelta,
            sineFrequency := dispatchTarget s i,
            interruptMicroseconds :=
              getInterruptMicroseconds (dispatchTarget s i) },
         { timerRestarted := true,
           gainWrite := some (gainCode (dispatchTarget s i)),
           displayWrite := some (platterRPM (dispatchTarget s i)) })) := by
  cases hsw : i.encSwitchLow with
  | false =>
      simp only [loopStep, dispatchTarget, hsw, Bool.and_false, Bool.not_false,
        if_true, if_false, Bool.false_eq_true, ite_not, Bool.and_true]
      split_ifs <;> simp_all
  | true =>
      have hp : s.encoderHasBeenPressed = true := by
        cases hpp : s.encoderHasBeenPressed
        · rw [hpp] at h; simp at h; rw [hsw] at h; exact absurd h (by simp)
        · rfl
      simp only [loopStep, dispatchTarget, hsw, hp, Bool.not_true,
        Bool.false_and, Bool.true_and, if_false, Bool.false_eq_true, ite_not,
        Bool.and_true]
      split_ifs <;> simp_all

/-- C3.  Frequency clamping: starting from a state whose frequency is within
`[MIN_SINE_FREQ, MAX_SINE_FREQ] = [10, 75]` and whose period is derived from
it (as `setup()` establishes), one `loop()` iteration — for every raw control
input: any toggle position, any encoder delta, any switch reading — leaves
the stored frequency in `[10, 75]`, keeps `interruptMicroseconds` equal to
`1000000 / (frequency * 600)`, and that period is strictly positive and
finite (a well-defined rational, never a NaN or infinity, since the
denominator is bounded away from zero). -/
theorem loop_keeps_frequency_in_bounds (s : LoopState) (i : LoopInput)
    (h0 : MIN_SINE_FREQ ≤ s.sineFrequency) (h1 : s.sineFrequency ≤ MAX_SINE_FREQ)
    (hper : s.interruptMicroseconds = getInterruptMicroseconds s.sineFrequency) :
    MIN_SINE_FREQ ≤ (loopStep s i).1.sineFrequency ∧
    (loopStep s i).1.sineFrequency ≤ MAX_SINE_FREQ ∧
    (loopStep s i).1.interruptMicroseconds
      = getInterruptMicroseconds (loopStep s i).1.sineFrequency ∧
    0 < (loopStep s i).1.interruptMicroseconds := by
  by_cases hc : (!s.encoderHasBeenPressed && i.encSwitchLow) = true
  · obtain ⟨hp, hsw⟩ : s.encoderHasBeenPressed = false ∧ i.encSwitchLow = true := by
      simpa using hc
    rw [loopStep_toggle s i hp hsw]
    exact ⟨h0, h1, hper, hper ▸ interruptMicroseconds_pos h0⟩
  · rw [loopStep_main s i (by simpa using hc)]
    by_cases hd : dispatchTarget s i = s.sineFrequency
    · rw [if_pos hd]
      exact ⟨h0, h1, hper, hper ▸ interruptMicroseconds_pos h0⟩
    · rw [if_neg hd]
      exact ⟨(dispatchTarget_mem s i).1, (dispatchTarget_mem s i).2, rfl,
        interruptMicroseconds_pos (dispatchTarget_mem s i).1⟩

/-- C3 witness: the bound theorem instantiated at a concrete in-range state
(frequency 48, derived period) and a concrete input. -/
theorem loop_keeps_frequency_in_bounds_witness :
    MIN_SINE_FREQ ≤ (48 : ℚ) ∧ (48 : ℚ) ≤ MAX_SINE_FREQ ∧
    (MIN_SINE_FREQ ≤ (loopStep ⟨false, false, 0, 48, getInterruptMicroseconds 48⟩
        ⟨false, true, 0⟩).1.sineFrequency ∧
      (loopStep ⟨false, false, 0, 48, getInterruptMicroseconds 48⟩
        ⟨false, true, 0⟩).1.sineFrequency ≤ MAX_SINE_FREQ ∧
      (loopStep ⟨false, false, 0, 48, getInterruptMicroseconds 48⟩
        ⟨false, true, 0⟩).1.interruptMicroseconds
        = getInterruptMicroseconds (loopStep ⟨false, false, 0, 48,
            getInterruptMicroseconds 48⟩ ⟨false, true, 0⟩).1.sineFrequency ∧
      0 < (loopStep ⟨false, false, 0, 48, getInterruptMicroseconds 48⟩
        ⟨false, true, 0⟩).1.interruptMicroseconds) :=
  ⟨by norm_num [MIN_SINE_FREQ], by norm_num [MAX_SINE_FREQ],
    loop_keeps_frequency_in_bounds ⟨false, false, 0, 48, getInterruptMicroseconds 48⟩
      ⟨false, true, 0⟩ (by norm_num [MIN_SINE_FREQ]) (by norm_num [MAX_SINE_FREQ]) rfl⟩

lemma clampFreq_presetFreq (b : Bool) : clampFreq (presetFreq b) = presetFreq b := by
  cases b <;>
    norm_num [presetFreq, freqLeft, freqRight, getSineFrequency, clampFreq,
      STEP_ANGLE, RPM_TOGGLE_LEFT, RPM_TOGGLE_RIGHT, GEAR_FACTOR,
      MIN_SINE_FREQ, MAX_SINE_FREQ]

/-- C4.  The recompute cascade is governed by the exact-inequality test
`newFreq != sineFrequency`: (i) when the clamped candidate equals the current
frequency the iteration is a no-op — no timer restart, no gain write, no
display write, frequency and period untouched; (ii) when it differs, the
iteration dispatches the timer restart, the gain write and the display write
once; and (iii) running the iteration again with the same raw input (same
switch and toggle readings; the encoder accumulator was already consumed, so
no new pulses) dispatches nothing — so two identical iterations trigger at
most one reconfigure/gain/display cascade, never two. -/
theorem recompute_cascade_idempotent (s : LoopState) (i : LoopInput)
    (hsw : i.encSwitchLow = false)
    (h0 : MIN_SINE_FREQ ≤ s.sineFrequency) (h1 : s.sineFrequency ≤ MAX_SINE_FREQ) :
    (dispatchTarget s i = s.sineFrequency →
      (loopStep s i).2 = noEffects ∧
      (loopStep s i).1.sineFrequency = s.sineFrequency ∧
      (loopStep s i).1.interruptMicroseconds = s.interruptMicroseconds) ∧
    (dispatchTarget s i ≠ s.sineFrequency →
      (loopStep s i).2 =
        { timerRestarted := true,
          gainWrite := some (gainCode (dispatchTarget s i)),
          displayWrite := some (platterRPM (dispatchTarget s i)) }) ∧
    (loopStep (loopStep s i).1 ⟨false, i.freqToggleLow, 0⟩).2 = noEffects := by
  have hmain := loopStep_main s i (by rw [hsw, Bool.and_false])
  refine ⟨?_, ?_, ?_⟩
  · intro hd
    rw [hmain, if_pos hd]
    exact ⟨rfl, rfl, rfl⟩
  · intro hd
    rw [hmain, if_neg hd]
  · have e1 : (loopStep s i).1.useEncoder = s.useEncoder := by
      rw [hmain]; split_ifs <;> rfl
    have e2 : s.useEncoder = true → (loopStep s i).1.encoderCount = 0 := by
      intro hu; rw [hmain]; split_ifs <;> simp [hu]
    have e3 : ((loopStep s i).1.sineFrequency = s.sineFrequency ∧
                dispatchTarget s i = s.sineFrequency) ∨
              (loopStep s i).1.sineFrequency = dispatchTarget s i := by
      by_cases hd : dispatchTarget s i = s.sineFrequency
      · exact Or.inl ⟨by rw [hmain, if_pos hd], hd⟩
      · exact Or.inr (by rw [hmain, if_neg hd])
    have hb0 : MIN_SINE_FREQ ≤ (loopStep s i).1.sineFrequency := by
      rcases e3 with ⟨hf, _⟩ | hf
      · rw [hf]; exact h0
      · rw [hf]; exact (dispatchTarget_mem s i).1
    have hb1 : (loopStep s i).1.sineFrequency ≤ MAX_SINE_FREQ := by
      rcases e3 with ⟨hf, _⟩ | hf
      · rw [hf]; exact h1
      · rw [hf]; exact (dispatchTarget_mem s i).2
    rw [loopStep_main (loopStep s i).1 ⟨false, i.freqToggleLow, 0⟩
      (by rw [Bool.and_false])]
    have htar : dispatchTarget (loopStep s i).1 ⟨false, i.freqToggleLow, 0⟩
        = (loopStep s i).1.sineFrequency := by
      unfold dispatchTarget
      cases hu : (loopStep s i).1.useEncoder with
      | true =>
          rw [if_pos rfl, e2 (e1 ▸ hu)]
          norm_num
          exact clampFreq_eq_self hb0 hb1
      | false =>
          rw [if_neg (by simp)]
          show clampFreq (presetFreq i.freqToggleLow) = _
          have hu' : s.useEncoder = false := e1 ▸ hu
          have hds : dispatchTarget s i = clampFreq (presetFreq i.freqToggleLow) := by
            unfold dispatchTarget
            rw [hu']
            simp
          rcases e3 with ⟨hf, hd⟩ | hf
          · rw [hf, ← hd, hds]
          · rw [hf, hds]
    rw [if_pos htar]

/-- C4 witness: the idempotence theorem instantiated at a concrete state
(preset mode, in-range frequency 48) and a concrete input. -/
theorem recompute_cascade_idempotent_witness :
    (⟨false, true, (0 : ℤ)⟩ : LoopInput).encSwitchLow = false ∧
    MIN_SINE_FREQ ≤ ((⟨false, false, 0, 48, 100⟩ : LoopState)).sineFrequency ∧
    ((⟨false, false, 0, 48, 100⟩ : LoopState)).sineFrequency ≤ MAX_SINE_FREQ ∧
    ((dispatchTarget ⟨false, false, 0, 48, 100⟩ ⟨false, true, 0⟩
        = ((⟨false, false, 0, 48, 100⟩ : LoopState)).sineFrequency →
      (loopStep ⟨false, false, 0, 48, 100⟩ ⟨false, true, 0⟩).2 = noEffects ∧
      (loopStep ⟨false, false, 0, 48, 100⟩ ⟨false, true, 0⟩).1.sineFrequency
        = ((⟨false, false, 0, 48, 100⟩ : LoopState)).sineFrequency ∧
      (loopStep ⟨false, false, 0, 48, 100⟩ ⟨false, true, 0⟩).1.interruptMicroseconds
        = ((⟨false, false, 0, 48, 100⟩ : LoopState)).interruptMicroseconds) ∧
    (dispatchTarget ⟨false, false, 0, 48, 100⟩ ⟨false, true, 0⟩
        ≠ ((⟨false, false, 0, 48, 100⟩ : LoopState)).sineFrequency →
      (loopStep ⟨false, false, 0, 48, 100⟩ ⟨false, true, 0⟩).2 =
        { timerRestarted := true,
          gainWrite := some (gainCode
            (dispatchTarget ⟨false, false, 0, 48, 100⟩ ⟨false, true, 0⟩)),
          displayWrite := some (platterRPM
            (dispatchTarget ⟨false, false, 0, 48, 100⟩ ⟨false, true, 0⟩)) }) ∧
    (loopStep (loopStep ⟨false, false, 0, 48, 100⟩ ⟨false, true, 0⟩).1
        ⟨false, true, 0⟩).2 = noEffects) :=
  ⟨rfl, by norm_num [MIN_SINE_FREQ], by norm_num [MAX_SINE_FREQ],
    recompute_cascade_idempotent ⟨false, false, 0, 48, 100⟩ ⟨false, true, 0⟩ rfl
      (by norm_num [MIN_SINE_FREQ]) (by norm_num [MAX_SINE_FREQ])⟩

/-- C10.  A mode-toggle edge (encoder switch LOW while the debounce flag is
clear) flips `useEncoder`, sets the debounce flag, zeroes the encoder
accumulator — discarding any pulses accumulated before the toggle, which
therefore never reach the frequency — and returns immediately:
`sineFrequency`, `interruptMicroseconds` are unchanged and no timer restart,
gain write or display write happens on that iteration. -/
theorem mode_toggle_edge_is_frame (s : LoopState) (i : LoopInput)
    (hp : s.encoderHasBeenPressed = false) (hsw : i.encSwitchLow = true) :
    (loopStep s i).1.useEncoder = !s.useEncoder ∧
    (loopStep s i).1.encoderHasBeenPressed = true ∧
    (loopStep s i).1.encoderCount = 0 ∧
    (loopStep s i).1.sineFrequency = s.sineFrequency ∧
    (loopStep s i).1.interruptMicroseconds = s.interruptMicroseconds ∧
    (loopStep s i).2 = noEffects := by
  rw [loopStep_toggle s i hp hsw]
  exact ⟨rfl, rfl, rfl, rfl, rfl, rfl⟩

/-- C10 witness: the toggle-edge theorem at a concrete state carrying a
pending accumulator value of 5 and 3 fresh pulses, all discarded. -/
theorem mode_toggle_edge_is_frame_witness :
    ((⟨true, false, 5, 48, 100⟩ : LoopState)).encoderHasBeenPressed = false ∧
    ((⟨true, false, 3⟩ : LoopInput)).encSwitchLow = true ∧
    ((loopStep ⟨true, false, 5, 48, 100⟩ ⟨true, false, 3⟩).1.useEncoder
        = !((⟨true, false, 5, 48, 100⟩ : LoopState)).useEncoder ∧
      (loopStep ⟨true, false, 5, 48, 100⟩ ⟨true, false, 3⟩).1.encoderHasBeenPressed
        = true ∧
      (loopStep ⟨true, false, 5, 48, 100⟩ ⟨true, false, 3⟩).1.encoderCount = 0 ∧
      (loopStep ⟨true, false, 5, 48, 100⟩ ⟨true, false, 3⟩).1.sineFrequency
        = ((⟨true, false, 5, 48, 100⟩ : LoopState)).sineFrequency ∧
      (loopStep ⟨true, false, 5, 48, 100⟩ ⟨true, false, 3⟩).1.interruptMicroseconds
        = ((⟨true, false, 5, 48, 100⟩ : LoopState)).interruptMicroseconds ∧
      (loopStep ⟨true, false, 5, 48, 100⟩ ⟨true, false, 3⟩).2 = noEffects) :=
  ⟨rfl, rfl,
    mode_toggle_edge_is_frame ⟨true, false, 5, 48, 100⟩ ⟨true, false, 3⟩ rfl rfl⟩

/-! ## SineTableBuilder (`createSineTable` in both sketches)

`sineTable[i] = (uint16_t)(((1 + sin((2*PI / SAMPLES_PER_CYCLE) * i)) * dacBitRange) / 2)`
with `dacBitRange = pow(2, DAC_RESOLUTION) - 1 = 4095`.  The real-valued
sample is modelled with `Real.sin`; the C cast truncates toward zero, and the
sample value is nonnegative (`1 + sin ≥ 0`), so the cast is `Int.floor`. -/

/-- The real-valued sine sample before the `(uint16_t)` cast. -/
noncomputable def sineTableVal (i : ℕ) : ℝ :=
  ((1 + Real.sin ((2 * Real.pi / (SAMPLES_PER_CYCLE : ℝ)) * i))
    * ((2 : ℝ) ^ DAC_RESOLUTION - 1)) / 2

/-- The stored table entry: truncation of the nonnegative sample value. -/
noncomputable def sineTable (i : ℕ) : ℤ :=
  ⌊sineTableVal i⌋

lemma sineTableVal_zero : sineTableVal 0 = 4095 / 2 := by
  simp [sineTableVal, SAMPLES_PER_CYCLE, DAC_RESOLUTION]
  norm_num

lemma floor_half_4095 : ⌊(4095 : ℝ) / 2⌋ = 2047 := by
  apply Int.floor_eq_iff.mpr
  constructor <;> norm_num

lemma sineTable_at_zero : sineTable 0 = 2047 := by
  rw [sineTable, sineTableVal_zero]
  exact floor_half_4095

lemma sineTable_at_300 : sineTable 300 = 2047 := by
  have hang : (2 * Real.pi / (SAMPLES_PER_CYCLE : ℝ)) * (300 : ℕ) = Real.pi := by
    simp [SAMPLES_PER_CYCLE]
    ring
  rw [sineTable, sineTableVal, hang, Real.sin_pi]
  rw [show ((1 + 0) * ((2:ℝ) ^ DAC_RESOLUTION - 1)) / 2 = (4095 : ℝ) / 2
    by norm_num [DAC_RESOLUTION]]
  exact floor_half_4095

lemma sineTable_at_150 : sineTable 150 = 4095 := by
  have hang : (2 * Real.pi / (SAMPLES_PER_CYCLE : ℝ)) * (150 : ℕ) = Real.pi / 2 := by
    simp [SAMPLES_PER_CYCLE]
    ring
  rw [sineTable, sineTableVal, hang, Real.sin_pi_div_two]
  rw [show ((1 + 1) * ((2:ℝ) ^ DAC_RESOLUTION - 1)) / 2 = ((4095 : ℤ) : ℝ)
    by norm_num [DAC_RESOLUTION]]
  exact Int.floor_intCast 4095

lemma sineTable_at_450 : sineTable 450 = 0 := by
  have hang : (2 * Real.pi / (SAMPLES_PER_CYCLE : ℝ)) * (450 : ℕ)
      = Real.pi + Real.pi / 2 := by
    simp [SAMPLES_PER_CYCLE]
    ring
  have hsin : Real.sin (Real.pi + Real.pi / 2) = -1 := by
    rw [Real.sin_add]
    simp
  rw [sineTable, sineTableVal, hang, hsin]
  rw [show ((1 + -1) * ((2:ℝ) ^ DAC_RESOLUTION - 1)) / 2 = ((0 : ℤ) : ℝ)
    by norm_num]
  exact Int.floor_intCast 0

/-- C5 counterexample.  The claimed reflection symmetry
`table[i] == table[(N-i) mod N]` (within one quantization unit) fails at
`i = 150`: the table stores `4095` at 150 but `0` at `(600-150) mod 600 = 450`
(sine is odd, not even, under `i ↦ N - i`). -/
theorem sineTable_reflection_fails_at_150 :
    sineTable 150 = 4095 ∧
    sineTable ((SAMPLES_PER_CYCLE - 150) % SAMPLES_PER_CYCLE) = 0 ∧
    ¬ |sineTable 150 - sineTable ((SAMPLES_PER_CYCLE - 150) % SAMPLES_PER_CYCLE)| ≤ 1 := by
  have h450 : (SAMPLES_PER_CYCLE - 150) % SAMPLES_PER_CYCLE = 450 := by decide
  rw [h450, sineTable_at_150, sineTable_at_450]
  norm_num

/-- Reflection sends the sample value to its complement:
`sineTableVal i + sineTableVal (N - i) = 4095` for `0 < i ≤ N`. -/
lemma sineTableVal_add_reflected (i : ℕ) (h2 : i ≤ SAMPLES_PER_CYCLE) :
    sineTableVal i + sineTableVal (SAMPLES_PER_CYCLE - i) = 4095 := by
  have hcast : ((SAMPLES_PER_CYCLE - i : ℕ) : ℝ) = 600 - (i : ℝ) := by
    rw [Nat.cast_sub h2]
    norm_num [SAMPLES_PER_CYCLE]
  have hang : (2 * Real.pi / (SAMPLES_PER_CYCLE : ℝ)) * ((SAMPLES_PER_CYCLE - i : ℕ) : ℝ)
      = 2 * Real.pi - (2 * Real.pi / (SAMPLES_PER_CYCLE : ℝ)) * i := by
    rw [hcast]
    simp [SAMPLES_PER_CYCLE]
    ring
  have hsin : Real.sin (2 * Real.pi - (2 * Real.pi / (SAMPLES_PER_CYCLE : ℝ)) * i)
      = -Real.sin ((2 * Real.pi / (SAMPLES_PER_CYCLE : ℝ)) * i) := by
    rw [Real.sin_sub, Real.sin_two_pi, Real.cos_two_pi]
    ring
  unfold sineTableVal
  rw [hang, hsin]
  norm_num [DAC_RESOLUTION]
  ring

/-- C5 amended.  The table is complementary, not mirror-symmetric, under
`i ↦ (N - i) mod N`: for every `i < N` the two entries sum to `4095` up to
the one quantization unit lost to truncation — `table[i] + table[(N-i) mod N]
∈ {4094, 4095}`, i.e. `table[i] == (2^R - 1) - table[(N-i) mod N]` within one
quantization unit. -/
theorem sineTable_complementary_symmetry (i : ℕ) (h : i < SAMPLES_PER_CYCLE) :
    4094 ≤ sineTable i + sineTable ((SAMPLES_PER_CYCLE - i) % SAMPLES_PER_CYCLE) ∧
    sineTable i + sineTable ((SAMPLES_PER_CYCLE - i) % SAMPLES_PER_CYCLE) ≤ 4095 := by
  rcases Nat.eq_zero_or_pos i with hz | hpos
  · subst hz
    have hidx : (SAMPLES_PER_CYCLE - 0) % SAMPLES_PER_CYCLE = 0 := by decide
    rw [hidx, sineTable_at_zero]
    norm_num
  · have hidx : (SAMPLES_PER_CYCLE - i) % SAMPLES_PER_CYCLE = SAMPLES_PER_CYCLE - i :=
      Nat.mod_eq_of_lt (by omega)
    rw [hidx]
    have hsum := sineTableVal_add_reflected i (le_of_lt h)
    have hf1 : ((sineTable i : ℤ) : ℝ) ≤ sineTableVal i := Int.floor_le _
    have hf2 : ((sineTable (SAMPLES_PER_CYCLE - i) : ℤ) : ℝ)
        ≤ sineTableVal (SAMPLES_PER_CYCLE - i) := Int.floor_le _
    have hg1 : sineTableVal i < (sineTable i : ℤ) + 1 := Int.lt_floor_add_one _
    have hg2 : sineTableVal (SAMPLES_PER_CYCLE - i)
        < (sineTable (SAMPLES_PER_CYCLE - i) : ℤ) + 1 := Int.lt_floor_add_one _
    constructor
    · have hlt : (4093 : ℝ) < ((sineTable i + sineTable (SAMPLES_PER_CYCLE - i) : ℤ) : ℝ) := by
        push_cast
        linarith
      have : (4093 : ℤ) < sineTable i + sineTable (SAMPLES_PER_CYCLE - i) := by
        exact_mod_cast hlt
      omega
    · have hle : ((sineTable i + sineTable (SAMPLES_PER_CYCLE - i) : ℤ) : ℝ) ≤ (4095 : ℝ) := by
        push_cast
        linarith
      exact_mod_cast hle

/-- C5 witness: the complementary-symmetry bound instantiated at `i = 150`,
where the two entries are `4095` and `0`. -/
theorem sineTable_complementary_symmetry_witness :
    150 < SAMPLES_PER_CYCLE ∧
    (4094 ≤ sineTable 150 + sineTable ((SAMPLES_PER_CYCLE - 150) % SAMPLES_PER_CYCLE) ∧
      sineTable 150 + sineTable ((SAMPLES_PER_CYCLE - 150) % SAMPLES_PER_CYCLE) ≤ 4095) :=
  ⟨by decide, sineTable_complementary_symmetry 150 (by decide)⟩

/-- C8 counterexample.  The table entry at 0 is not `2048`: the code casts
(truncates) `(1 + sin 0) * 4095 / 2 = 2047.5` to `2047`; the claimed value
`2048` would require round-half-up, which the source does not perform. -/
theorem sineTable_endpoint_not_2048 : sineTable 0 ≠ 2048 := by
  rw [sineTable_at_zero]
  decide

/-- C8 amended.  With `N = 600`, `R = 12` and the truncating
`(uint16_t)` cast, both endpoints `table[0]` and `table[N/2]` store `2047` —
the floor of the vertical midpoint `2047.5` — so the two endpoints are equal
to each other, one quantization unit below the claimed `2048`. -/
theorem sineTable_endpoints_truncate_to_2047 :
    sineTable 0 = 2047 ∧ sineTable (SAMPLES_PER_CYCLE / 2) = 2047 := by
  have h : SAMPLES_PER_CYCLE / 2 = 300 := by decide
  rw [h]
  exact ⟨sineTable_at_zero, sineTable_at_300⟩

/-! ## teensySine sketch: the continuous (audio-taper pot) control path

`loop()` in teensySine reads `vFreq = analogRead(ADC_PIN_FREQ)` and, when it
is zero, sets `stepperRPM = 0` and returns (with a `TODO disable interrupt`
comment); the nonlinear rpm curve, the derived frequency, the period and the
timer restart happen only on the nonzero branch. -/

def ADC_RESOLUTION : ℕ := 13

/-- Source: `int adcBitRange = pow(2, ADC_RESOLUTION)`, i.e. 8192. -/
def adcBitRange : ℕ := 2 ^ ADC_RESOLUTION

/-- The audio-taper mapping `500.0 * 1.0 / (1.0 - log10(vFreq / adcBitRange))`,
only ever evaluated on the nonzero branch. -/
noncomputable def tsRPMCurve (v : ℕ) : ℝ :=
  500 * 1 / (1 - Real.logb 10 ((v : ℝ) / (adcBitRange : ℝ)))

/-- Globals of the teensySine sketch touched by `loop()`. -/
structure TSState where
  stepperRPM : ℝ
  sineFrequency : ℝ
  interruptMicroseconds : ℝ

/-- Externally visible actions of one teensySine `loop()` iteration:
whether the timer was stopped and restarted, and whether the rpm curve
(the expression containing `log10`) was evaluated. -/
structure TSEffects where
  timerRestarted : Bool
  rpmCurveEvaluated : Bool

/-- One iteration of the teensySine function `loop()` (with `useSlider` true, as
initialized) as a function of the raw ADC reading `vFreq`.
`STEP_ANGLE = 7.5` and `SAMPLES_PER_CYCLE = 600` as in the source. -/
noncomputable def tsLoopStep (s : TSState) (vFreq : ℕ) : TSState × TSEffects :=
  if vFreq = 0 then
    ({ s with stepperRPM := 0 },
     { timerRestarted := false, rpmCurveEvaluated := false })
  else
    let rpm := tsRPMCurve vFreq
    let f : ℝ := ((360 / (15 / 2 : ℝ)) * (rpm / 60)) / 4
    ({ stepperRPM := rpm, sineFrequency := f,
       interruptMicroseconds := 1000000 / (f * (SAMPLES_PER_CYCLE : ℝ)) },
     { timerRestarted := true, rpmCurveEvaluated := true })

/-- C6.  Evaluation of the zero-reading branch: when `vFreq = 0` the code
never evaluates the rpm curve — so `log10(0)` is indeed never computed — but
it does **not** select a minimum frequency (no minimum exists in this sketch)
and does **not** halt sampling: it merely zeroes `stepperRPM` and returns,
leaving `sineFrequency`, the period and the running timer untouched, so the
sampler keeps emitting at the previous rate (the `TODO disable interrupt` comment in the source marks the missing stop). -/
theorem zero_reading_keeps_sampler_running (s : TSState) :
    (tsLoopStep s 0).2.rpmCurveEvaluated = false ∧
    (tsLoopStep s 0).1.stepperRPM = 0 ∧
    (tsLoopStep s 0).1.sineFrequency = s.sineFrequency ∧
    (tsLoopStep s 0).1.interruptMicroseconds = s.interruptMicroseconds ∧
    (tsLoopStep s 0).2.timerRestarted = false := by
  simp only [tsLoopStep, if_pos rfl]
  exact ⟨rfl, rfl, rfl, rfl, rfl⟩

end Zella
